import Mathlib

/-!
Shallow embedding of the SSE pub/sub channel
(`src/services/eventStreamManager/ssePubsub.ts`, class `SSEChannel`).

Modelling conventions:
* JavaScript numbers holding message ids are modelled as `Int`
  (ids are integers here: `startId` is an integer and ids only ever grow by 1).
* The `data` argument of `publish` is modelled as `Option String`: `none` is an
  absent/`undefined` argument, `some s` is a string payload (object payloads are
  modelled after their `JSON.stringify`, which the source applies first).
  JavaScript truthiness of such a value: `none` and `some ""` are falsy.
* The `eventName` argument is likewise `Option String` with the same truthiness.
* A `RegExp` filter entry is modelled as an arbitrary boolean test on strings.
* Express `Request`/`Response` objects are opaque: a connection is identified by
  a client id `cid`; a write to a response is recorded as a `(cid, text)` pair.
-/

namespace SSEPubsub

/-- A subscription-list entry: either a literal string or a pattern
(`RegExp` in the source), modelled as a boolean test. -/
inductive Matcher where
  | str (s : String)
  | pat (test : String → Bool)

/-- The `Options` interface of the source. -/
structure Options where
  pingInterval : Nat
  maxStreamDuration : Nat
  clientRetryInterval : Nat
  startId : Int
  historySize : Nat
  rewind : Nat
  deriving DecidableEq

/-- The `Message` interface: `{ id, eventName, output }`, where `output` is the
fully rendered wire block. -/
structure Msg where
  id : Int
  eventName : String
  output : String
  deriving DecidableEq

/-- The `Connection` interface: an opaque stream handle (represented by `cid`)
plus the optional event filter. -/
structure Conn where
  cid : Nat
  events : Option (List Matcher)

/-- The mutable state of an `SSEChannel` instance. The JS `Set` of clients is
modelled as a list in insertion order (each `subscribe` creates a fresh object,
so `Set.add` always appends). -/
structure SSEChannel where
  nextID : Int
  clients : List Conn
  messages : List Msg
  active : Bool
  options : Options

/-- JavaScript truthiness of an optional string: `undefined` and `""` are
falsy. -/
def jsTruthy : Option String → Bool
  | none => false
  | some s => s ≠ ""

/-- Is the character a line-break character (the class `[\r\n]`)? -/
def isNL (c : Char) : Bool := c = '\n' ∨ c = '\r'

/-- `String.prototype.split(/[\r\n]+/)` on a list of characters: each maximal
run of line-break characters is one separator.  Empty segments survive at the
two ends (`"\na"` gives `["", "a"]`) but never in the middle. -/
def splitRuns : List Char → List (List Char)
  | [] => [[]]
  | c :: cs =>
    if isNL c then
      match cs with
      | d :: _ => if isNL d then splitRuns cs else [] :: splitRuns cs
      | [] => [] :: splitRuns cs
    else
      match splitRuns cs with
      | [] => [[c]]
      | t :: ts => (c :: t) :: ts

/-- `s.split(/[\r\n]+/)` as in the source's data-line preparation. -/
def splitNewlineRuns (s : String) : List String :=
  (splitRuns s.data).map fun l => String.mk l

/-- The source's `pat instanceof RegExp ? pat.test(eventName) : pat === eventName`. -/
def matcherTest (m : Matcher) (eventName : String) : Bool :=
  match m with
  | .str s => s == eventName
  | .pat test => test eventName

/-- `SSEChannel.hasEventMatch`. The source's leading `!subscriptionList ||` is
vacuous for an array argument (arrays are truthy), so the result is
`subscriptionList.some (...)`. -/
def hasEventMatch (subscriptionList : List Matcher) (eventName : String) : Bool :=
  subscriptionList.any fun pat => matcherTest pat eventName

/-- The fan-out predicate of `publish`:
`!eventName || !c.events || this.hasEventMatch(c.events, eventName)`, with
`eventName` already defaulted to `""` (falsy iff empty).  Note an *empty* filter
array is truthy in JS, so it falls through to `hasEventMatch`, which then
matches nothing. -/
def deliver (events : Option (List Matcher)) (eventName : String) : Bool :=
  (eventName == "") ||
    (match events with
     | none => true
     | some l => hasEventMatch l eventName)

/-- The replay filter of `subscribe`:
`c.events ? this.hasEventMatch(c.events, m.eventName) : true`. -/
def replayPred (events : Option (List Matcher)) (eventName : String) : Bool :=
  match events with
  | none => true
  | some l => hasEventMatch l eventName

/-- The `while (messages.length > historySize) messages.shift()` loop: drop
elements from the front until at most `n` remain. -/
def trimTo (n : Nat) (l : List α) : List α := l.drop (l.length - n)

/-- `Array.prototype.join(sep)`. -/
def joinWith (sep : String) : List String → String
  | [] => ""
  | [a] => a
  | a :: as => a ++ sep ++ joinWith sep as

/-- The source's rendering of the `data:` lines:
`data ? (data+"").split(/[\r\n]+/).map(s => "data: "+s).join("\n") : ""`. -/
def dataBlock (d : Option String) : String :=
  match d with
  | none => ""
  | some s =>
    if s = "" then ""
    else joinWith "\n" ((splitNewlineRuns s).map fun str => "data: " ++ str)

/-- The full rendered block of a non-ping message:
``id: ${id} \n`` + optional ``event: ${eventName}\n`` + (`data` lines or a lone
`data: `) + `"\n\n"`. -/
def renderOutput (id : Int) (eventName : String) (d : Option String) : String :=
  let dataStr := dataBlock d
  "id: " ++ toString id ++ " \n" ++
    (if eventName ≠ "" then "event: " ++ eventName ++ "\n" else "") ++
    (if dataStr = "" then "data: " else dataStr) ++
    "\n\n"

/-- The result of one `publish` call: the new channel state, the returned id
(`none` when `undefined` is returned), the response writes performed (client id
paired with the written text, in client order), and whether the
channel-closed warning was logged. -/
structure PubResult where
  state : SSEChannel
  retId : Option Int
  writes : List (Nat × String)
  warned : Bool

/-- `SSEChannel.publish(data?, eventName?)`.  Mirrors the source line by line:
a falsy `data` and falsy `eventName` make a ping (early return when no clients
are connected); otherwise `id = nextID++`, the block is rendered, pushed, fanned
out to matching clients, and the history is trimmed. -/
def publish (ch : SSEChannel) (data : Option String) (eventName : Option String) :
    PubResult :=
  let warned := !ch.active
  if !(jsTruthy data) && !(jsTruthy eventName) then
    if ch.clients.isEmpty then
      ⟨ch, none, [], warned⟩
    else
      let output := "data: \n\n"
      let en := eventName.getD ""
      let writes := (ch.clients.filter fun c => deliver c.events en).map
        fun c => (c.cid, output)
      ⟨{ ch with messages := trimTo ch.options.historySize ch.messages },
        none, writes, warned⟩
  else
    let id := ch.nextID
    let en := eventName.getD ""
    let output := renderOutput id en data
    let msgs := trimTo ch.options.historySize (ch.messages ++ [⟨id, en, output⟩])
    let writes := (ch.clients.filter fun c => deliver c.events en).map
      fun c => (c.cid, output)
    ⟨{ ch with nextID := id + 1, messages := msgs }, some id, writes, warned⟩

/-- `Number.parseInt(s, 10)`: skip leading whitespace, take an optional sign,
then the longest run of decimal digits; `NaN` (here `none`) when that run is
empty. -/
def parseIntJS (s : String) : Option Int :=
  let t := s.data.dropWhile fun c => c.isWhitespace
  let signAndRest : Int × List Char :=
    match t with
    | '-' :: r => (-1, r)
    | '+' :: r => (1, r)
    | _ => (1, t)
  let digits := signAndRest.2.takeWhile fun c => c.isDigit
  if digits.isEmpty then none
  else some (signAndRest.1 *
    ((digits.foldl (fun acc c => acc * 10 + (c.toNat - Char.toNat '0')) 0 : Nat) : Int))

/-- The `lastID` computation of `subscribe`:
`req.headers["last-event-id"] ? parseInt(...) : NaN`, with `none` standing for
`NaN`.  An absent or empty header is falsy. -/
def parseLastEventID (header : Option String) : Option Int :=
  match header with
  | none => none
  | some s => if s = "" then none else parseIntJS s

/-- The `rewind` computation of `subscribe`:
`!Number.isNaN(lastID) ? nextID - 1 - lastID : options.rewind`. -/
def computeRewind (ch : SSEChannel) (header : Option String) : Int :=
  match parseLastEventID header with
  | some lastID => ch.nextID - 1 - lastID
  | none => (ch.options.rewind : Int)

/-- `Array.prototype.slice(start)` with a single, possibly negative, start
index: a negative index counts from the end. -/
def jsSliceFrom (start : Int) (l : List α) : List α :=
  if start < 0 then l.drop (l.length - (-start).toNat) else l.drop start.toNat

/-- The messages replayed by `subscribe` before the connection is registered:
`if (rewind) messages.filter(...).slice(0 - rewind)`.  Note `if (rewind)` is
taken for *any* non-zero rewind, including negative ones. -/
def replayList (ch : SSEChannel) (events : Option (List Matcher))
    (header : Option String) : List Msg :=
  let rewind := computeRewind ch header
  if rewind = 0 then []
  else jsSliceFrom (0 - rewind) (ch.messages.filter fun m => replayPred events m.eventName)

/-- Result of `subscribe`: new state, the body written to the new connection
before it goes live, and whether the channel-closed warning was logged. -/
structure SubResult where
  state : SSEChannel
  body : String
  warned : Bool

/-- `SSEChannel.subscribe(req, res, events?)`: write the retry preamble and the
replayed history, then add the connection to the client set.  Timer and
stream-lifecycle hooks are event-driven and modelled separately
(`unsubscribe`). -/
def subscribe (ch : SSEChannel) (header : Option String)
    (events : Option (List Matcher)) (cid : Nat) : SubResult :=
  let warned := !ch.active
  let body := "retry: " ++ toString ch.options.clientRetryInterval ++ "\n\n" ++
    String.join ((replayList ch events header).map fun m => m.output)
  ⟨{ ch with clients := ch.clients ++ [⟨cid, events⟩] }, body, warned⟩

/-- Channel state plus the state of the underlying response streams: the set of
client ids whose stream has been ended (`res.end()`).  Ending an already-ended
Node response is absorbed (the registered `error` handler only logs), so
`endStream` is idempotent. -/
structure SysState where
  chan : SSEChannel
  ended : List Nat

/-- `res.end()` on the stream of client `cid` (absorbing on an already-ended
stream). -/
def endStream (s : SysState) (cid : Nat) : SysState :=
  if cid ∈ s.ended then s else { s with ended := s.ended ++ [cid] }

/-- `SSEChannel.unsubscribe(c)`: `c.res.end(); this.clients.delete(c)`.  `Set`
deletion by object identity is modelled as removal by client id. -/
def unsubscribe (s : SysState) (c : Conn) : SysState :=
  let s1 := endStream s c.cid
  { s1 with
    chan := { s1.chan with clients := s1.chan.clients.filter fun x => x.cid != c.cid } }

/-- `SSEChannel.close()`: end every client stream, clear clients and messages,
stop the ping timer (not modelled), mark inactive. -/
def close (s : SysState) : SysState :=
  let s1 := s.chan.clients.foldl (fun acc c => endStream acc c.cid) s
  { s1 with
    chan := { s1.chan with clients := [], messages := [], active := false } }

/-- `SSEChannel.getSubscriberCount()`. -/
def getSubscriberCount (ch : SSEChannel) : Nat := ch.clients.length

/-- The constructor argument `Partial<Options>`: every field optional. -/
structure OptsInput where
  pingInterval : Option Nat := none
  maxStreamDuration : Option Nat := none
  clientRetryInterval : Option Nat := none
  startId : Option Int := none
  historySize : Option Nat := none
  rewind : Option Nat := none

/-- The constructor's destructuring defaults:
`pingInterval = 30000, maxStreamDuration = 0, clientRetryInterval = 10000,
startId = 1, historySize = 1, rewind = 0`. -/
def resolveOptions (p : OptsInput) : Options where
  pingInterval := p.pingInterval.getD 30000
  maxStreamDuration := p.maxStreamDuration.getD 0
  clientRetryInterval := p.clientRetryInterval.getD 10000
  startId := p.startId.getD 1
  historySize := p.historySize.getD 1
  rewind := p.rewind.getD 0

/-- A freshly constructed channel: `nextID = startId`, no messages, active.
`clients` is a parameter so that states with connected subscribers are also
covered (reachable via `subscribe`). -/
def initChannel (opts : Options) (cs : List Conn) : SSEChannel where
  nextID := opts.startId
  clients := cs
  messages := []
  active := true
  options := opts

/-- One `publish` call, as an input pair `(data, eventName)`. -/
def PubCall := Option String × Option String

/-- Run a sequence of `publish` calls. -/
def runPublishes (ch : SSEChannel) : List PubCall → SSEChannel
  | [] => ch
  | c :: cs => runPublishes (publish ch c.1 c.2).state cs

/-- The message a `publish` call pushes onto the history (empty for pings). -/
def pushedOf (ch : SSEChannel) (c : PubCall) : List Msg :=
  if jsTruthy c.1 || jsTruthy c.2 then
    [⟨ch.nextID, c.2.getD "", renderOutput ch.nextID (c.2.getD "") c.1⟩]
  else []

/-- The full, untrimmed log of messages pushed by a sequence of `publish`
calls. -/
def publishLog (ch : SSEChannel) : List PubCall → List Msg
  | [] => []
  | c :: cs => pushedOf ch c ++ publishLog (publish ch c.1 c.2).state cs

/-- The ids returned (assigned) over a sequence of `publish` calls. -/
def assignedIds (ch : SSEChannel) : List PubCall → List Int
  | [] => []
  | c :: cs =>
    ((publish ch c.1 c.2).retId.toList) ++ assignedIds (publish ch c.1 c.2).state cs

/-- The history invariant: all buffered ids are below `nextID`, buffered ids
are strictly increasing in buffer order, and the buffer is within capacity. -/
def HistoryInv (ch : SSEChannel) : Prop :=
  (∀ m ∈ ch.messages, m.id < ch.nextID) ∧
  (ch.messages.map Msg.id).Chain' (· < ·) ∧
  ch.messages.length ≤ ch.options.historySize

/-- Modelled from the spec's words ("non-numeric" last-event-id header):
a numeric string is an optionally signed non-empty run of decimal digits. -/
def isNumericString (s : String) : Bool :=
  let t := match s.data with
    | '-' :: r => r
    | '+' :: r => r
    | l => l
  !t.isEmpty && t.all fun c => c.isDigit

/-- Modelled from the spec's words: the conventional split of a string into
lines, one separator per single `'\n'` (so `"a\n\nb"` has the three lines
`a`, `` and `b`). -/
def splitLines : List Char → List (List Char)
  | [] => [[]]
  | c :: cs =>
    if c = '\n' then [] :: splitLines cs
    else
      match splitLines cs with
      | [] => [[c]]
      | t :: ts => (c :: t) :: ts

/-- The conventional lines of a payload string. -/
def specLines (s : String) : List String := (splitLines s.data).map fun l => String.mk l

/-- Modelled from the spec's words (§6 wire format): one `data: <line>\n` line
per line of the payload, with lines obtained by the conventional split on a
single newline, terminated by a blank line.  Stated only to compare the spec's
predicted block with the one the code renders. -/
def specRender (id : Int) (eventName : String) (payload : String) : String :=
  "id: " ++ toString id ++ " \n" ++
    (if eventName ≠ "" then "event: " ++ eventName ++ "\n" else "") ++
    joinWith "\n" ((specLines payload).map fun t => "data: " ++ t) ++
    "\n\n"

/-- The options a channel constructed with `{}` gets. -/
def defaultOptions : Options := resolveOptions {}

/-- Sample options with a deeper history, for concrete witness states. -/
def sampleOpts : Options := { defaultOptions with historySize := 10 }

/-- A fresh default channel with no clients. -/
def chDefault : SSEChannel := initChannel defaultOptions []

/-- A channel over `sampleOpts` after publishing `("a","x")`, `("b","y")`,
`("c","x")`: history ids 1, 2, 3 and `nextID = 4`. -/
def chSample : SSEChannel :=
  runPublishes (initChannel sampleOpts [])
    [(some "a", some "x"), (some "b", some "y"), (some "c", some "x")]

/-- A default channel that has been closed. -/
def chClosed : SSEChannel := (close ⟨chDefault, []⟩).chan

/-! ### Basic lemmas about the trimming loop -/

theorem trimTo_length_le (n : Nat) (l : List α) : (trimTo n l).length ≤ n := by
  simp only [trimTo, List.length_drop]
  omega

theorem trimTo_sublist (n : Nat) (l : List α) : (trimTo n l).Sublist l :=
  List.drop_sublist _ _

theorem trimTo_eq_of_le {n : Nat} {l : List α} (h : l.length ≤ n) : trimTo n l = l := by
  simp only [trimTo, Nat.sub_eq_zero_of_le h, List.drop_zero]

theorem trimTo_append (n : Nat) (xs ys : List α) :
    trimTo n (trimTo n xs ++ ys) = trimTo n (xs ++ ys) := by
  unfold trimTo
  rcases le_or_lt xs.length n with h | h
  · simp only [Nat.sub_eq_zero_of_le h, List.drop_zero]
  · have hlen : (xs.drop (xs.length - n)).length = n := by
      simp only [List.length_drop]; omega
    have hL : ((xs.drop (xs.length - n)) ++ ys).length - n = ys.length := by
      simp only [List.length_append, hlen]; omega
    have hR : (xs ++ ys).length - n = (xs.length - n) + ys.length := by
      simp only [List.length_append]; omega
    rw [hL, hR, ← List.drop_drop]
    congr 1
    rw [List.drop_append_eq_append_drop, Nat.sub_eq_zero_of_le (Nat.sub_le _ _),
      List.drop_zero]

/-! ### Shape lemmas for `publish` -/

theorem publish_nonping (ch : SSEChannel) (d e : Option String)
    (h : (jsTruthy d || jsTruthy e) = true) :
    publish ch d e =
      ⟨{ ch with
          nextID := ch.nextID + 1,
          messages := trimTo ch.options.historySize
            (ch.messages ++
              [⟨ch.nextID, e.getD "", renderOutput ch.nextID (e.getD "") d⟩]) },
        some ch.nextID,
        (ch.clients.filter fun c => deliver c.events (e.getD "")).map
          fun c => (c.cid, renderOutput ch.nextID (e.getD "") d),
        !ch.active⟩ := by
  have hcond : (!(jsTruthy d) && !(jsTruthy e)) = false := by
    cases hd : jsTruthy d <;> cases he : jsTruthy e <;> simp_all
  simp [publish, hcond]

theorem publish_ping_empty (ch : SSEChannel) (d e : Option String)
    (h : (jsTruthy d || jsTruthy e) = false) (hc : ch.clients.isEmpty = true) :
    publish ch d e = ⟨ch, none, [], !ch.active⟩ := by
  have hcond : (!(jsTruthy d) && !(jsTruthy e)) = true := by
    cases hd : jsTruthy d <;> cases he : jsTruthy e <;> simp_all
  simp [publish, hcond, hc]

theorem publish_ping_nonempty (ch : SSEChannel) (d e : Option String)
    (h : (jsTruthy d || jsTruthy e) = false) (hc : ch.clients.isEmpty = false) :
    publish ch d e =
      ⟨{ ch with messages := trimTo ch.options.historySize ch.messages },
        none,
        (ch.clients.filter fun c => deliver c.events (e.getD "")).map
          fun c => (c.cid, "data: \n\n"),
        !ch.active⟩ := by
  have hcond : (!(jsTruthy d) && !(jsTruthy e)) = true := by
    cases hd : jsTruthy d <;> cases he : jsTruthy e <;> simp_all
  simp [publish, hcond, hc]

theorem publish_ping_retId (ch : SSEChannel) (d e : Option String)
    (h : (jsTruthy d || jsTruthy e) = false) :
    (publish ch d e).retId = none := by
  cases hc : ch.clients.isEmpty
  · rw [publish_ping_nonempty ch d e h hc]
  · rw [publish_ping_empty ch d e h hc]

theorem publish_options (ch : SSEChannel) (d e : Option String) :
    (publish ch d e).state.options = ch.options := by
  cases hcond : (jsTruthy d || jsTruthy e)
  · cases hc : ch.clients.isEmpty
    · rw [publish_ping_nonempty ch d e hcond hc]
    · rw [publish_ping_empty ch d e hcond hc]
  · rw [publish_nonping ch d e hcond]

theorem publish_clients (ch : SSEChannel) (d e : Option String) :
    (publish ch d e).state.clients = ch.clients := by
  cases hcond : (jsTruthy d || jsTruthy e)
  · cases hc : ch.clients.isEmpty
    · rw [publish_ping_nonempty ch d e hcond hc]
    · rw [publish_ping_empty ch d e hcond hc]
  · rw [publish_nonping ch d e hcond]

theorem publish_nextID_le (ch : SSEChannel) (d e : Option String) :
    ch.nextID ≤ (publish ch d e).state.nextID := by
  cases hcond : (jsTruthy d || jsTruthy e)
  · cases hc : ch.clients.isEmpty
    · rw [publish_ping_nonempty ch d e hcond hc]
    · rw [publish_ping_empty ch d e hcond hc]
  · rw [publish_nonping ch d e hcond]
    simp only
    omega

theorem publish_messages_eq (ch : SSEChannel) (d e : Option String)
    (h : ch.messages.length ≤ ch.options.historySize) :
    (publish ch d e).state.messages =
      trimTo ch.options.historySize (ch.messages ++ pushedOf ch (d, e)) := by
  cases hcond : (jsTruthy d || jsTruthy e)
  · have hp : pushedOf ch (d, e) = [] := by simp [pushedOf, hcond]
    rw [hp, List.append_nil]
    cases hc : ch.clients.isEmpty
    · rw [publish_ping_nonempty ch d e hcond hc]
    · rw [publish_ping_empty ch d e hcond hc, trimTo_eq_of_le h]
  · have hp : pushedOf ch (d, e) =
        [⟨ch.nextID, e.getD "", renderOutput ch.nextID (e.getD "") d⟩] := by
      simp [pushedOf, hcond]
    rw [publish_nonping ch d e hcond, hp]

/-! ### The history invariant is preserved by `publish` -/

theorem publish_inv {ch : SSEChannel} (d e : Option String) (h : HistoryInv ch) :
    HistoryInv (publish ch d e).state := by
  obtain ⟨hlt, hch, hlen⟩ := h
  cases hcond : (jsTruthy d || jsTruthy e)
  · cases hc : ch.clients.isEmpty
    · rw [publish_ping_nonempty ch d e hcond hc]
      refine ⟨?_, ?_, ?_⟩
      · intro m hm
        exact hlt m ((trimTo_sublist _ _).subset hm)
      · exact hch.sublist ((trimTo_sublist _ _).map Msg.id)
      · exact trimTo_length_le _ _
    · rw [publish_ping_empty ch d e hcond hc]
      exact ⟨hlt, hch, hlen⟩
  · rw [publish_nonping ch d e hcond]
    set m : Msg := ⟨ch.nextID, e.getD "", renderOutput ch.nextID (e.getD "") d⟩ with hm
    refine ⟨?_, ?_, ?_⟩
    · intro x hx
      have hx2 : x ∈ ch.messages ++ [m] := (trimTo_sublist _ _).subset hx
      rcases List.mem_append.mp hx2 with hx3 | hx3
      · have := hlt x hx3
        simp only
        omega
      · have : x = m := by simpa using hx3
        subst this

        simp only [hm]
        omega
    · have hbig : ((ch.messages ++ [m]).map Msg.id).Chain' (· < ·) := by
        rw [List.map_append]
        refine List.chain'_append.mpr ⟨hch, List.chain'_singleton _, ?_⟩
        intro x hx y hy
        have hx2 := List.mem_of_mem_getLast? hx
        rcases List.mem_map.mp hx2 with ⟨mx, hmx, hmxid⟩
        have hy2 : ch.nextID = y := by simpa [hm] using hy
        subst hy2
        rw [← hmxid]
        exact hlt mx hmx
      exact hbig.sublist ((trimTo_sublist _ _).map Msg.id)
    · exact trimTo_length_le _ _

/-! ### Lemmas about running a sequence of publishes -/

theorem run_options (calls : List PubCall) :
    ∀ ch : SSEChannel, (runPublishes ch calls).options = ch.options := by
  induction calls with
  | nil => intro ch; rfl
  | cons c cs ih =>
    intro ch
    rw [runPublishes, ih, publish_options]

theorem run_inv (calls : List PubCall) :
    ∀ ch : SSEChannel, HistoryInv ch → HistoryInv (runPublishes ch calls) := by
  induction calls with
  | nil => intro ch h; exact h
  | cons c cs ih =>
    intro ch h
    exact ih _ (publish_inv c.1 c.2 h)

theorem run_messages (calls : List PubCall) :
    ∀ ch : SSEChannel, HistoryInv ch →
      (runPublishes ch calls).messages =
        trimTo ch.options.historySize (ch.messages ++ publishLog ch calls) := by
  induction calls with
  | nil =>
    intro ch h
    rw [runPublishes, publishLog, List.append_nil, trimTo_eq_of_le h.2.2]
  | cons c cs ih =>
    intro ch h
    rw [runPublishes, publishLog,
      ih _ (publish_inv c.1 c.2 h), publish_options,
      publish_messages_eq ch c.1 c.2 h.2.2, trimTo_append, List.append_assoc]
    rfl

theorem run_nextID_le (calls : List PubCall) :
    ∀ ch : SSEChannel, ch.nextID ≤ (runPublishes ch calls).nextID := by
  induction calls with
  | nil => intro ch; exact le_refl _
  | cons c cs ih =>
    intro ch
    exact le_trans (publish_nextID_le ch c.1 c.2) (ih _)

theorem run_length_le (calls : List PubCall) (ch : SSEChannel) (h : HistoryInv ch) :
    (runPublishes ch calls).messages.length ≤ ch.options.historySize := by
  have := (run_inv calls ch h).2.2
  rwa [run_options] at this

theorem initChannel_inv (opts : Options) (cs : List Conn) :
    HistoryInv (initChannel opts cs) := by
  refine ⟨?_, ?_, ?_⟩ <;> simp [initChannel, HistoryInv]

/-! ### Lemmas about assigned ids -/

theorem assignedIds_lb (calls : List PubCall) :
    ∀ (ch : SSEChannel) (i : Int), i ∈ assignedIds ch calls → ch.nextID ≤ i := by
  induction calls with
  | nil => intro ch i hi; simp [assignedIds] at hi
  | cons c cs ih =>
    intro ch i hi
    rw [assignedIds] at hi
    rcases List.mem_append.mp hi with hi2 | hi2
    · cases hcond : (jsTruthy c.1 || jsTruthy c.2)
      · rw [publish_ping_retId ch c.1 c.2 hcond] at hi2
        simp at hi2
      · rw [publish_nonping ch c.1 c.2 hcond] at hi2
        have : i = ch.nextID := by simpa using hi2
        omega
    · exact le_trans (publish_nextID_le ch c.1 c.2) (ih _ i hi2)

theorem assignedIds_chain (calls : List PubCall) :
    ∀ ch : SSEChannel, (assignedIds ch calls).Chain' (· < ·) := by
  induction calls with
  | nil => intro ch; simp [assignedIds]
  | cons c cs ih =>
    intro ch
    rw [assignedIds]
    cases hcond : (jsTruthy c.1 || jsTruthy c.2)
    · rw [publish_ping_retId ch c.1 c.2 hcond]
      simpa using ih _
    · have hret : (publish ch c.1 c.2).retId = some ch.nextID := by
        rw [publish_nonping ch c.1 c.2 hcond]
      have hnext : (publish ch c.1 c.2).state.nextID = ch.nextID + 1 := by
        rw [publish_nonping ch c.1 c.2 hcond]
      rw [hret]
      simp only [Option.toList, List.cons_append, List.nil_append]
      refine List.chain'_cons'.mpr ⟨?_, ih _⟩
      intro y hy
      have hy2 := List.mem_of_mem_head? hy
      have := assignedIds_lb cs _ y hy2
      rw [hnext] at this
      omega

/-! ### Lemmas about the replay slice -/

theorem jsSliceFrom_sublist (b : Int) (l : List α) : (jsSliceFrom b l).Sublist l := by
  unfold jsSliceFrom
  split <;> exact List.drop_sublist _ _

theorem replayList_sublist (ch : SSEChannel) (events : Option (List Matcher))
    (header : Option String) : (replayList ch events header).Sublist ch.messages := by
  have hre : replayList ch events header =
      if computeRewind ch header = 0 then []
      else jsSliceFrom (0 - computeRewind ch header)
        (ch.messages.filter fun m => replayPred events m.eventName) := rfl
  rw [hre]
  split
  · exact List.nil_sublist _
  · exact (jsSliceFrom_sublist _ _).trans (List.filter_sublist _)

theorem replayList_length_le (ch : SSEChannel) (events : Option (List Matcher))
    (header : Option String) :
    (replayList ch events header).length ≤ ch.messages.length :=
  (replayList_sublist ch events header).length_le

/-! ### Lemmas about line splitting and joining -/

theorem splitRuns_nil : splitRuns [] = [[]] := rfl

theorem splitRuns_singleton_nl {c : Char} (hc : isNL c = true) :
    splitRuns [c] = [[], []] := by
  conv_lhs => rw [splitRuns.eq_def]
  simp [hc, splitRuns_nil]

theorem splitRuns_cons_nl_nl {c d : Char} (ds : List Char)
    (hc : isNL c = true) (hd : isNL d = true) :
    splitRuns (c :: d :: ds) = splitRuns (d :: ds) := by
  conv_lhs => rw [splitRuns.eq_def]
  simp [hc, hd]

theorem splitRuns_cons_nl_other {c d : Char} (ds : List Char)
    (hc : isNL c = true) (hd : isNL d = false) :
    splitRuns (c :: d :: ds) = [] :: splitRuns (d :: ds) := by
  conv_lhs => rw [splitRuns.eq_def]
  simp [hc, hd]

theorem splitRuns_cons_other {c : Char} (cs : List Char) (hc : isNL c = false) :
    splitRuns (c :: cs) =
      match splitRuns cs with
      | [] => [[c]]
      | t :: ts => (c :: t) :: ts := by
  conv_lhs => rw [splitRuns.eq_def]
  simp [hc]

theorem splitRuns_ne_nil (l : List Char) : splitRuns l ≠ [] := by
  induction l with
  | nil => simp [splitRuns_nil]
  | cons c cs ih =>
    cases hNL : isNL c
    · rcases hsp : splitRuns cs with _ | ⟨t, ts⟩
      · simp [splitRuns_cons_other cs hNL, hsp]
      · simp [splitRuns_cons_other cs hNL, hsp]
    · cases cs with
      | nil => simp [splitRuns_singleton_nl hNL]
      | cons d ds =>
        cases hd : isNL d
        · simp [splitRuns_cons_nl_other ds hNL hd]
        · rw [splitRuns_cons_nl_nl ds hNL hd]
          exact ih

theorem splitRuns_no_nl (l : List Char) :
    ∀ t ∈ splitRuns l, ∀ c ∈ t, isNL c = false := by
  induction l with
  | nil =>
    intro t ht x hx
    simp [splitRuns_nil] at ht
    subst ht
    simp at hx
  | cons c cs ih =>
    cases hNL : isNL c
    · rcases hsp : splitRuns cs with _ | ⟨t0, ts⟩
      · exact absurd hsp (splitRuns_ne_nil cs)
      · intro t ht x hx
        rw [splitRuns_cons_other cs hNL, hsp] at ht
        rcases List.mem_cons.mp ht with ht2 | ht2
        · subst ht2
          rcases List.mem_cons.mp hx with hx2 | hx2
          · subst hx2; exact hNL
          · exact ih t0 (hsp ▸ List.mem_cons_self t0 ts) x hx2
        · exact ih t (hsp ▸ List.mem_cons_of_mem t0 ht2) x hx
    · cases cs with
      | nil =>
        intro t ht x hx
        rw [splitRuns_singleton_nl hNL] at ht
        rcases List.mem_cons.mp ht with ht2 | ht2
        · subst ht2; simp at hx
        · simp only [List.mem_singleton] at ht2
          subst ht2; simp at hx
      | cons d ds =>
        cases hd : isNL d
        · intro t ht x hx
          rw [splitRuns_cons_nl_other ds hNL hd] at ht
          rcases List.mem_cons.mp ht with ht2 | ht2
          · subst ht2; simp at hx
          · exact ih t ht2 x hx
        · intro t ht x hx
          rw [splitRuns_cons_nl_nl ds hNL hd] at ht
          exact ih t ht x hx

theorem joinWith_length_ge (sep : String) (a : String) (as : List String) :
    a.length ≤ (joinWith sep (a :: as)).length := by
  cases as with
  | nil => exact le_refl _
  | cons b bs =>
    have : joinWith sep (a :: b :: bs) = a ++ sep ++ joinWith sep (b :: bs) := rfl
    rw [this, String.length_append, String.length_append]
    omega

theorem ne_empty_of_length_pos {s : String} (h : 0 < s.length) : s ≠ "" := by
  intro he
  subst he
  simp at h

theorem dataBlock_some_ne {s : String} (h : s ≠ "") : dataBlock (some s) ≠ "" := by
  rw [dataBlock, if_neg h]
  rcases hsp : splitRuns s.data with _ | ⟨t, ts⟩
  · exact absurd hsp (splitRuns_ne_nil s.data)
  · rw [splitNewlineRuns, hsp]
    simp only [List.map_cons, List.map_map]
    apply ne_empty_of_length_pos
    have h1 := joinWith_length_ge "\n" ("data: " ++ String.mk t)
      (ts.map (fun l => "data: " ++ String.mk l))
    have h2 : 0 < ("data: " ++ String.mk t).length := by
      rw [String.length_append]
      have : ("data: " : String).length = 6 := rfl
      omega
    calc 0 < ("data: " ++ String.mk t).length := h2
      _ ≤ _ := by
        simpa [Function.comp] using h1

/-! ### The claims -/

/-- Claim C4: after every sequence of `publish` calls on a fresh channel the
history buffer holds at most `historySize` entries, the retained entries are
exactly the most recent pushed ones (trimming evicts oldest-first, so the
buffer is the `historySize`-suffix of the full push log), and the buffered ids
are strictly increasing in buffer order. -/
theorem c4_history_bounds (opts : Options) (cs : List Conn) (calls : List PubCall) :
    (runPublishes (initChannel opts cs) calls).messages.length ≤ opts.historySize ∧
    ((runPublishes (initChannel opts cs) calls).messages.map Msg.id).Chain' (· < ·) ∧
    (runPublishes (initChannel opts cs) calls).messages =
      trimTo opts.historySize (publishLog (initChannel opts cs) calls) := by
  have hinv := initChannel_inv opts cs
  refine ⟨run_length_le calls _ hinv, (run_inv calls _ hinv).2.1, ?_⟩
  have h := run_messages calls _ hinv
  simpa [initChannel] using h

/-- Claim C2 (amended): for every `publish` whose `data` or `eventName` is
truthy (non-absent and non-empty — the non-ping case), the channel assigns
`id = nextID`, increments `nextID` by one, appends the rendered message to the
history (which is then trimmed to capacity), and returns that id; over any
sequence of `publish` calls `nextID` never decreases and the assigned ids are
strictly increasing, hence never reused. -/
theorem c2_id_assignment :
    (∀ (ch : SSEChannel) (d e : Option String), (jsTruthy d || jsTruthy e) = true →
      (publish ch d e).retId = some ch.nextID ∧
      (publish ch d e).state.nextID = ch.nextID + 1 ∧
      (publish ch d e).state.messages =
        trimTo ch.options.historySize
          (ch.messages ++ [⟨ch.nextID, e.getD "", renderOutput ch.nextID (e.getD "") d⟩])) ∧
    (∀ (ch : SSEChannel) (calls : List PubCall),
      ch.nextID ≤ (runPublishes ch calls).nextID) ∧
    (∀ (ch : SSEChannel) (calls : List PubCall),
      (assignedIds ch calls).Chain' (· < ·) ∧ (assignedIds ch calls).Nodup) := by
  refine ⟨?_, ?_, ?_⟩
  · intro ch d e h
    rw [publish_nonping ch d e h]
    exact ⟨rfl, rfl, rfl⟩
  · intro ch calls
    exact run_nextID_le calls ch
  · intro ch calls
    have hch := assignedIds_chain calls ch
    refine ⟨hch, ?_⟩
    have hpw : (assignedIds ch calls).Pairwise (· < ·) :=
      List.chain'_iff_pairwise.mp hch
    exact hpw.imp ne_of_lt

/-- Witness for C2: on a fresh default channel, publishing `"a"` returns id 1
and advances `nextID` to 2. -/
theorem c2_id_assignment_witness :
    (publish chDefault (some "a") none).retId = some 1 ∧
    (publish chDefault (some "a") none).state.nextID = 2 := by
  have h := c2_id_assignment.1 chDefault (some "a") none (by decide)
  exact ⟨h.1.trans (by decide), h.2.1.trans (by decide)⟩

/-- Counterexample for C2 as stated: `publish("", undefined)` has `data`
present (an empty string), yet the code treats it as a ping — no id is
assigned, nothing is returned and nothing is appended. -/
theorem c2_id_assignment_counterexample :
    (some "" : Option String).isSome = true ∧
    (publish chDefault (some "") none).retId = none ∧
    (publish chDefault (some "") none).state.nextID = chDefault.nextID ∧
    (publish chDefault (some "") none).state.messages = chDefault.messages := by
  refine ⟨rfl, ?_, ?_, ?_⟩ <;> decide

/-- Claim C10: omitted configuration fields default to
`pingInterval = 30000`, `maxStreamDuration = 0`, `clientRetryInterval = 10000`,
`startId = 1`, `historySize = 1`, `rewind = 0`; with the all-default options the
history never holds more than one message and replay can deliver at most one
message. -/
theorem c10_defaults :
    (∀ p : OptsInput,
      (p.pingInterval = none → (resolveOptions p).pingInterval = 30000) ∧
      (p.maxStreamDuration = none → (resolveOptions p).maxStreamDuration = 0) ∧
      (p.clientRetryInterval = none → (resolveOptions p).clientRetryInterval = 10000) ∧
      (p.startId = none → (resolveOptions p).startId = 1) ∧
      (p.historySize = none → (resolveOptions p).historySize = 1) ∧
      (p.rewind = none → (resolveOptions p).rewind = 0)) ∧
    (∀ (cs : List Conn) (calls : List PubCall),
      (runPublishes (initChannel defaultOptions cs) calls).messages.length ≤ 1) ∧
    (∀ (cs : List Conn) (calls : List PubCall) (events : Option (List Matcher))
        (header : Option String),
      (replayList (runPublishes (initChannel defaultOptions cs) calls) events
        header).length ≤ 1) := by
  refine ⟨?_, ?_, ?_⟩
  · intro p
    refine ⟨?_, ?_, ?_, ?_, ?_, ?_⟩ <;> intro h <;> simp [resolveOptions, h]
  · intro cs calls
    exact run_length_le calls (initChannel defaultOptions cs)
      (initChannel_inv defaultOptions cs)
  · intro cs calls events header
    exact le_trans (replayList_length_le _ events header)
      (run_length_le calls (initChannel defaultOptions cs)
        (initChannel_inv defaultOptions cs))

/-- Witness for C10: the all-omitted input yields exactly the documented
defaults, and two publishes on a default channel leave a single buffered
message. -/
theorem c10_defaults_witness :
    (resolveOptions {}).pingInterval = 30000 ∧
    (resolveOptions {}).maxStreamDuration = 0 ∧
    (resolveOptions {}).clientRetryInterval = 10000 ∧
    (resolveOptions {}).startId = 1 ∧
    (resolveOptions {}).historySize = 1 ∧
    (resolveOptions {}).rewind = 0 ∧
    (runPublishes (initChannel defaultOptions [])
      [(some "a", none), (some "b", none)]).messages.length ≤ 1 := by
  have h := c10_defaults
  exact ⟨(h.1 {}).1 rfl, (h.1 {}).2.1 rfl, (h.1 {}).2.2.1 rfl, (h.1 {}).2.2.2.1 rfl,
    (h.1 {}).2.2.2.2.1 rfl, (h.1 {}).2.2.2.2.2 rfl,
    h.2.1 [] [(some "a", none), (some "b", none)]⟩

/-- Claim C1 (amended): on a subscribe whose `Last-Event-ID` header parses to
`k`, let `d = nextID - 1 - k` be the replay depth.  When `d = 0` nothing is
replayed; when `d > 0` the replayed messages are the last `d` entries of the
*filter-matching subsequence* of the history (counted among matching entries,
not selected by `id > k`); when `d < 0` the replayed messages are the matching
entries from position `-d` onward (`slice` with a positive index), which can be
non-empty.  Replayed entries keep their original order, ids and rendered
payloads (the replay is a subsequence of the history). -/
theorem c1_replay_slice (ch : SSEChannel) (events : Option (List Matcher))
    (header : Option String) (k : Int) (h : parseLastEventID header = some k) :
    (ch.nextID - 1 - k = 0 → replayList ch events header = []) ∧
    (0 < ch.nextID - 1 - k →
      replayList ch events header =
        (ch.messages.filter fun m => replayPred events m.eventName).drop
          ((ch.messages.filter fun m => replayPred events m.eventName).length -
            (ch.nextID - 1 - k).toNat)) ∧
    (ch.nextID - 1 - k < 0 →
      replayList ch events header =
        (ch.messages.filter fun m => replayPred events m.eventName).drop
          (-(ch.nextID - 1 - k)).toNat) ∧
    (replayList ch events header).Sublist ch.messages := by
  have hcw : computeRewind ch header = ch.nextID - 1 - k := by
    rw [computeRewind, h]
  have hre : replayList ch events header =
      if computeRewind ch header = 0 then []
      else jsSliceFrom (0 - computeRewind ch header)
        (ch.messages.filter fun m => replayPred events m.eventName) := rfl
  refine ⟨?_, ?_, ?_, replayList_sublist ch events header⟩
  · intro h0
    rw [hre, hcw, if_pos h0]
  · intro hpos
    rw [hre, hcw, if_neg (by omega)]
    rw [jsSliceFrom, if_pos (by omega : (0 : Int) - (ch.nextID - 1 - k) < 0)]
    have h2 : (-(0 - (ch.nextID - 1 - k))).toNat = (ch.nextID - 1 - k).toNat := by
      omega
    rw [h2]
  · intro hneg
    rw [hre, hcw, if_neg (by omega)]
    rw [jsSliceFrom, if_neg (by omega : ¬((0 : Int) - (ch.nextID - 1 - k) < 0))]
    have h2 : ((0 : Int) - (ch.nextID - 1 - k)).toNat = (-(ch.nextID - 1 - k)).toNat := by
      omega
    rw [h2]

/-- Witness for C1: on the sample channel (ids 1,2,3, `nextID = 4`) a
subscribe with `Last-Event-ID: 2` replays exactly the message with id 3. -/
theorem c1_replay_slice_witness :
    parseLastEventID (some "2") = some 2 ∧
    replayList chSample none (some "2") =
      [⟨3, "x", "id: 3 \nevent: x\ndata: c\n\n"⟩] := by
  have h := c1_replay_slice chSample none (some "2") 2 (by decide)
  refine ⟨by decide, ?_⟩
  have h2 := h.2.1 (by decide)
  exact h2.trans (by decide)

/-- Counterexample for C1 as stated: with history ids 1,2,3 and `nextID = 4`,
a numeric `Last-Event-ID: 4` satisfies `k ≥ nextID - 1`, so the claim says no
history entry is replayed — but the negative replay depth makes
`slice(0 - rewind)` a slice with a *positive* index and messages 2 and 3 are
replayed. -/
theorem c1_replay_slice_counterexample :
    parseLastEventID (some "4") = some 4 ∧
    chSample.nextID - 1 ≤ 4 ∧
    replayList chSample none (some "4") ≠ [] := by
  refine ⟨by decide, by decide, by decide⟩

/-- Claim C9 (amended): a `Last-Event-ID` header that is absent, empty, or has
no parseable decimal-integer value under `parseInt` (no leading digits after
optional whitespace and sign) is treated as "no prior id": the replay depth is
the configured default `rewind`. -/
theorem c9_default_rewind (ch : SSEChannel) (header : Option String)
    (h : parseLastEventID header = none) :
    computeRewind ch header = (ch.options.rewind : Int) := by
  rw [computeRewind, h]

/-- Witness for C9: the header `"abc"` does not parse, so the default rewind
is used. -/
theorem c9_default_rewind_witness :
    parseLastEventID (some "abc") = none ∧
    computeRewind chDefault (some "abc") = (chDefault.options.rewind : Int) :=
  ⟨by decide, c9_default_rewind chDefault (some "abc") (by decide)⟩

/-- Counterexample for C9 as stated: `"12px"` is not a numeric string, yet
`parseInt` extracts its numeric prefix 12, so the replay depth is computed from
12 instead of falling back to the configured default rewind. -/
theorem c9_default_rewind_counterexample :
    isNumericString "12px" = false ∧
    computeRewind chDefault (some "12px") ≠ (chDefault.options.rewind : Int) :=
  ⟨by decide, by decide⟩

/-- Claim C7 (amended): the stored block of a non-ping publish is
`id: <id> \n`, then `event: <name>\n` exactly when the event name is non-empty,
then the data lines joined by single newlines — one `data: <segment>` per
segment of the payload split on maximal *runs* of CR/LF (consecutive line
breaks collapse to one separator), a lone `data: ` when the payload is falsy —
and a terminating blank line.  Segments never contain line-break characters. -/
theorem c7_wire_format :
    (∀ (ch : SSEChannel) (d e : Option String), (jsTruthy d || jsTruthy e) = true →
      (publish ch d e).state.messages =
        trimTo ch.options.historySize
          (ch.messages ++
            [⟨ch.nextID, e.getD "", renderOutput ch.nextID (e.getD "") d⟩])) ∧
    (∀ (id : Int) (en s : String), s ≠ "" →
      renderOutput id en (some s) =
        "id: " ++ toString id ++ " \n" ++
        (if en ≠ "" then "event: " ++ en ++ "\n" else "") ++
        joinWith "\n" ((splitNewlineRuns s).map fun t => "data: " ++ t) ++ "\n\n") ∧
    (∀ (id : Int) (en : String),
      renderOutput id en none =
        "id: " ++ toString id ++ " \n" ++
        (if en ≠ "" then "event: " ++ en ++ "\n" else "") ++ "data: " ++ "\n\n") ∧
    (∀ s : String, ∀ t ∈ splitNewlineRuns s, ∀ c ∈ t.data, isNL c = false) := by
  refine ⟨?_, ?_, ?_, ?_⟩
  · intro ch d e h
    rw [publish_nonping ch d e h]
  · intro id en s hs
    show "id: " ++ toString id ++ " \n" ++ _ ++
        (if dataBlock (some s) = "" then "data: " else dataBlock (some s)) ++ "\n\n" = _
    rw [if_neg (dataBlock_some_ne hs)]
    rw [dataBlock, if_neg hs]
  · intro id en
    rfl
  · intro s t ht x hx
    rcases List.mem_map.mp ht with ⟨u, hu, hut⟩
    subst hut
    exact splitRuns_no_nl s.data u hu x hx

/-- Witness for C7: a payload with one embedded newline renders as two data
lines, and a named publish on a fresh channel stores the rendered block. -/
theorem c7_wire_format_witness :
    renderOutput 5 "ev" (some "x\ny") =
      "id: " ++ toString (5 : Int) ++ " \n" ++
      (if ("ev" : String) ≠ "" then "event: " ++ "ev" ++ "\n" else "") ++
      joinWith "\n" ((splitNewlineRuns "x\ny").map fun t => "data: " ++ t) ++ "\n\n" ∧
    renderOutput 5 "ev" (some "x\ny") = "id: 5 \nevent: ev\ndata: x\ndata: y\n\n" := by
  have h := c7_wire_format.2.1 5 "ev" "x\ny" (by decide)
  exact ⟨h, by decide⟩

/-- Counterexample for C7 as stated: the payload `"a\n\nb"` has three lines
(`a`, an empty line, `b`), so "one data line per payload line" predicts three
`data:` lines — but the splitter collapses the consecutive line breaks and the
code renders only two. -/
theorem c7_wire_format_counterexample :
    (publish chDefault (some "a\n\nb") none).state.messages.map Msg.output =
      ["id: 1 \ndata: a\ndata: b\n\n"] ∧
    specRender 1 "" "a\n\nb" = "id: 1 \ndata: a\ndata: \ndata: b\n\n" ∧
    ¬ ((publish chDefault (some "a\n\nb") none).state.messages.map Msg.output =
        [specRender 1 "" "a\n\nb"]) := by
  refine ⟨by decide, by decide, by decide⟩

/-- Claim C3 (amended): `publish` on a closed (inactive) channel logs the
channel-closed warning and does not fail, but it is *not* ineffective: apart
from the warning the call behaves exactly as on an active channel — same
returned id, same writes, same resulting history and `nextID` (a non-ping
publish still assigns an id and appends to the cleared history). -/
theorem c3_inactive_publish (ch : SSEChannel) (d e : Option String) :
    (publish { ch with active := false } d e).warned = true ∧
    (publish { ch with active := true } d e).warned = false ∧
    (publish { ch with active := false } d e).retId =
      (publish { ch with active := true } d e).retId ∧
    (publish { ch with active := false } d e).writes =
      (publish { ch with active := true } d e).writes ∧
    (publish { ch with active := false } d e).state.messages =
      (publish { ch with active := true } d e).state.messages ∧
    (publish { ch with active := false } d e).state.nextID =
      (publish { ch with active := true } d e).state.nextID ∧
    (publish { ch with active := false } d e).state.clients = ch.clients := by
  cases hcond : (jsTruthy d || jsTruthy e)
  · cases hc : ch.clients.isEmpty
    · rw [publish_ping_nonempty { ch with active := false } d e hcond hc,
        publish_ping_nonempty { ch with active := true } d e hcond hc]
      exact ⟨rfl, rfl, rfl, rfl, rfl, rfl, rfl⟩
    · rw [publish_ping_empty { ch with active := false } d e hcond hc,
        publish_ping_empty { ch with active := true } d e hcond hc]
      exact ⟨rfl, rfl, rfl, rfl, rfl, rfl, rfl⟩
  · rw [publish_nonping { ch with active := false } d e hcond,
      publish_nonping { ch with active := true } d e hcond]
    exact ⟨rfl, rfl, rfl, rfl, rfl, rfl, rfl⟩

/-- Counterexample for C3 as stated: on a closed channel, publishing `"a"`
returns a (present) id and changes the history — the call is not
ineffective. -/
theorem c3_inactive_publish_counterexample :
    chClosed.active = false ∧
    (publish chClosed (some "a") none).retId ≠ none ∧
    (publish chClosed (some "a") none).state.messages ≠ chClosed.messages := by
  refine ⟨by decide, by decide, by decide⟩

/-- Claim C5: a named publish is written exactly to the clients whose filter
passes `deliver`; `deliver` holds iff the connection has no filter or some
filter entry matches the name (literally or as a pattern); for non-empty names
`deliver` coincides with the replay-path predicate `replayPred`; unnamed
(ping) messages are delivered to everyone; and a `{"foo"}` filter rejects
`"bar"` but accepts `"foo"`. -/
theorem c5_event_filtering :
    (∀ (ch : SSEChannel) (d : Option String) (en : String), en ≠ "" →
      (publish ch d (some en)).writes =
        (ch.clients.filter fun c => deliver c.events en).map
          fun c => (c.cid, renderOutput ch.nextID en d)) ∧
    (∀ (evs : Option (List Matcher)) (en : String), en ≠ "" →
      (deliver evs en = true ↔
        evs = none ∨ ∃ l, evs = some l ∧ ∃ p ∈ l, matcherTest p en = true)) ∧
    (∀ (evs : Option (List Matcher)) (en : String), en ≠ "" →
      deliver evs en = replayPred evs en) ∧
    (∀ evs : Option (List Matcher), deliver evs "" = true) ∧
    deliver (some [Matcher.str "foo"]) "bar" = false ∧
    deliver (some [Matcher.str "foo"]) "foo" = true := by
  refine ⟨?_, ?_, ?_, ?_, by decide, by decide⟩
  · intro ch d en hen
    have hcond : (jsTruthy d || jsTruthy (some en)) = true := by
      simp [jsTruthy, hen]
    rw [publish_nonping ch d (some en) hcond]
    rfl
  · intro evs en hen
    cases evs with
    | none => simp [deliver]
    | some l => simp [deliver, hasEventMatch, List.any_eq_true, hen]
  · intro evs en hen
    cases evs with
    | none => simp [deliver, replayPred, hen]
    | some l => simp [deliver, replayPred, hen]
  · intro evs
    simp [deliver]

/-- Witness for C5: a publish of event `"foo"` is written to the `{"foo"}`
client and to the unfiltered client, but not to the `{"baz"}` client; a
`{"foo"}` filter lets pings through. -/
theorem c5_event_filtering_witness :
    (publish (initChannel defaultOptions
        [⟨0, some [Matcher.str "foo"]⟩, ⟨1, none⟩, ⟨2, some [Matcher.str "baz"]⟩])
        (some "v") (some "foo")).writes =
      [(0, renderOutput 1 "foo" (some "v")), (1, renderOutput 1 "foo" (some "v"))] ∧
    deliver (some [Matcher.str "foo"]) "" = true := by
  have h := c5_event_filtering
  refine ⟨?_, h.2.2.2.1 (some [Matcher.str "foo"])⟩
  have h1 := h.1 (initChannel defaultOptions
    [⟨0, some [Matcher.str "foo"]⟩, ⟨1, none⟩, ⟨2, some [Matcher.str "baz"]⟩])
    (some "v") "foo" (by decide)
  exact h1.trans (by decide)

/-- Claim C6: a `publish()` with both arguments absent is a ping: with no
subscribers it returns no id and leaves the whole state untouched; with
subscribers it writes the single block `"data: \n\n"` to every subscriber and
leaves history and `nextID` unchanged. -/
theorem c6_ping_publish (ch : SSEChannel)
    (hlen : ch.messages.length ≤ ch.options.historySize) :
    (ch.clients.isEmpty = true →
      publish ch none none = ⟨ch, none, [], !ch.active⟩) ∧
    (ch.clients.isEmpty = false →
      (publish ch none none).retId = none ∧
      (publish ch none none).writes =
        ch.clients.map (fun c => (c.cid, "data: \n\n")) ∧
      (publish ch none none).state.messages = ch.messages ∧
      (publish ch none none).state.nextID = ch.nextID) := by
  constructor
  · intro hc
    exact publish_ping_empty ch none none (by decide) hc
  · intro hc
    rw [publish_ping_nonempty ch none none (by decide) hc]
    refine ⟨rfl, ?_, ?_, rfl⟩
    · have hft : (ch.clients.filter
          fun c => deliver c.events ((none : Option String).getD "")) = ch.clients :=
        List.filter_eq_self.mpr fun a _ => by simp [deliver]
      rw [hft]
    · exact trimTo_eq_of_le hlen

/-- Witness for C6: a ping on a channel with one subscriber writes one ping
block to it and buffers nothing. -/
theorem c6_ping_publish_witness :
    (publish (initChannel defaultOptions [⟨5, none⟩]) none none).retId = none ∧
    (publish (initChannel defaultOptions [⟨5, none⟩]) none none).writes =
      [(5, "data: \n\n")] ∧
    (publish (initChannel defaultOptions [⟨5, none⟩]) none none).state.messages = [] := by
  have h := (c6_ping_publish (initChannel defaultOptions [⟨5, none⟩]) (by decide)).2 rfl
  exact ⟨h.1, h.2.1.trans (by decide), h.2.2.1⟩

/-! ### Lemmas for `unsubscribe` and the stream state -/

theorem endStream_ended (s : SysState) (i : Nat) : i ∈ (endStream s i).ended := by
  unfold endStream
  split
  · assumption
  · simp

theorem endStream_already {s : SysState} {i : Nat} (h : i ∈ s.ended) :
    endStream s i = s := by
  unfold endStream
  rw [if_pos h]

theorem endStream_mem_iff (s : SysState) (i j : Nat) (h : j ≠ i) :
    j ∈ (endStream s i).ended ↔ j ∈ s.ended := by
  unfold endStream
  split
  · exact Iff.rfl
  · simp [h]

theorem unsubscribe_eq (s : SysState) (c : Conn) :
    unsubscribe s c =
      ⟨{ s.chan with clients := s.chan.clients.filter fun x => x.cid != c.cid },
        (endStream s c.cid).ended⟩ := by
  unfold unsubscribe endStream
  split <;> rfl

/-- Claim C8: `unsubscribe` is idempotent — a second call on the same
connection is a no-op on the whole system state (the already-ended stream is
not ended again), and an `unsubscribe` neither removes any other connection
from the client set nor touches any other connection's stream. -/
theorem c8_unsubscribe_idempotent (s : SysState) (c : Conn) :
    unsubscribe (unsubscribe s c) c = unsubscribe s c ∧
    (∀ x ∈ s.chan.clients, x.cid ≠ c.cid → x ∈ (unsubscribe s c).chan.clients) ∧
    (∀ i : Nat, i ≠ c.cid → ((i ∈ (unsubscribe s c).ended) ↔ i ∈ s.ended)) := by
  refine ⟨?_, ?_, ?_⟩
  · have hflt : (List.filter (fun x => x.cid != c.cid)
        (List.filter (fun x => x.cid != c.cid) s.chan.clients)) =
        List.filter (fun x => x.cid != c.cid) s.chan.clients :=
      List.filter_eq_self.mpr fun a ha => (List.mem_filter.mp ha).2
    rw [unsubscribe_eq s c]
    rw [unsubscribe_eq]
    rw [endStream_already (show c.cid ∈
      (⟨{ s.chan with clients := s.chan.clients.filter fun x => x.cid != c.cid },
        (endStream s c.cid).ended⟩ : SysState).ended from endStream_ended s c.cid)]
    dsimp only
    rw [hflt]
  · intro x hx hne
    rw [unsubscribe_eq s c]
    exact List.mem_filter.mpr ⟨hx, by simp [hne]⟩
  · intro i hne
    rw [unsubscribe_eq s c]
    exact endStream_mem_iff s c.cid i hne

/-- Witness for C8: removing client 1 twice equals removing it once, and
client 2 stays subscribed. -/
theorem c8_unsubscribe_idempotent_witness :
    unsubscribe (unsubscribe
        ⟨initChannel defaultOptions [⟨1, none⟩, ⟨2, none⟩], []⟩ ⟨1, none⟩) ⟨1, none⟩ =
      unsubscribe ⟨initChannel defaultOptions [⟨1, none⟩, ⟨2, none⟩], []⟩ ⟨1, none⟩ ∧
    (⟨2, none⟩ : Conn) ∈ (unsubscribe
      ⟨initChannel defaultOptions [⟨1, none⟩, ⟨2, none⟩], []⟩ ⟨1, none⟩).chan.clients := by
  have h := c8_unsubscribe_idempotent
    ⟨initChannel defaultOptions [⟨1, none⟩, ⟨2, none⟩], []⟩ ⟨1, none⟩
  exact ⟨h.1, h.2.1 ⟨2, none⟩ (List.mem_cons_of_mem _ (List.mem_cons_self _ _))
    (by decide)⟩

end SSEPubsub
